import Mathlib

/-!
Verification of the node-network serialization subsystem of houmy-tools
(`python3.11libs/core/nodeserializer.py`).

The host application (`hou`), the base64/bz2/json codecs and the sha1 digest
are external collaborators; they are modelled as parameters (the `Libs`
structure) or as abstract data (the `Wire` type for the
json -> bz2 -> urlsafe-base64 pipeline, whose composite is an injection of
envelopes into strings, with all non-image strings failing the parse step).
Everything else — the control flow, the validation order, the envelope
assembly, the asset scan — is translated directly from the source.
-/

namespace NodeSerializer

/-- Host application version tuple, e.g. `(19, 5, 432)`
    (`hou.applicationVersion()`). Components are natural numbers. -/
abbrev Houver := Nat × Nat × Nat

/-- A component (HDA) definition as seen through the host API:
    `definition.libraryFilePath()` and the bytes that
    `definition.copyToHDAFile` would write (bytes modelled as `String`). -/
structure HDADef where
  libraryFilePath : String
  hdaFileContents : String
  deriving DecidableEq, Repr

/-- A network movable item. `node` carries the data the serializer reads:
    `type().name()`, `type().category().name()`, the node name, parameter
    name/value pairs, and `type().definition()`. `netbox` stands for the
    non-`hou.Node` movable items (network boxes, sticky notes, ...). The
    nested contents of a node's own network are reached through the host call
    `allSubChildren()`, modelled as a host service in `Libs`. -/
inductive Item where
  | node (typeName categoryName name : String)
         (parms : List (String × String))
         (defn : Option HDADef)
  | netbox (name : String)
  deriving DecidableEq, Repr

/-- Whether the item is a `hou.Node` (`isinstance(item, hou.Node)`). -/
def Item.isNode : Item → Bool
  | .node _ _ _ _ _ => true
  | .netbox _ => false

/-- The node's type's definition (`item.type().definition()`). -/
def Item.defn : Item → Option HDADef
  | .node _ _ _ _ d => d
  | .netbox _ => none

/-- `item.type().name()`. -/
def Item.typeName : Item → String
  | .node t _ _ _ _ => t
  | .netbox _ => ""

/-- `item.type().category().name()`. -/
def Item.categoryName : Item → String
  | .node _ c _ _ _ => c
  | .netbox _ => ""

/-- A parent (container) node, with the two version-dependent ways the host
    exposes its child network category: `node.type().childTypeCategory().name()`
    (modern) and `node.childTypeCategory().name()` (pre-modern), plus a path
    giving it an identity. -/
structure ParentNode where
  path : String
  typeChildCategory : String
  directChildCategory : String
  deriving DecidableEq, Repr

/-- An input to the serializer: a movable item together with its parent
    (`item.parent()`). -/
structure SelItem where
  item : Item
  parent : ParentNode
  deriving DecidableEq, Repr

/-- One embedded asset record of the envelope's `hdaList`:
    `{'type': ..., 'category': ..., 'code': base64 hda bytes}`. -/
structure HDAItem where
  type : String
  category : String
  code : String
  deriving DecidableEq, Repr

/-- The JSON envelope assembled by `serializeNodesToString` / parsed by
    `deserializeStringToNodes`. `hdaList` is optional because the loader reads
    it with `data.get('hdaList', [])`; every other field is accessed with
    `data[...]`. -/
structure Envelope where
  algtype : Int
  version : Int
  versionMinor : Int
  houver : Houver
  context : String
  code : String
  hdaList : Option (List HDAItem)
  chsum : String
  deriving DecidableEq, Repr

/-- The opaque transport string. The pipeline
    `json.dumps -> bz2.compress -> base64.urlsafe_b64encode` is an injection of
    envelopes into strings; `valid e` is a string in its image and `corrupt`
    any string on which the inverse pipeline raises. -/
inductive Wire where
  | valid (e : Envelope)
  | corrupt
  deriving DecidableEq, Repr

/-- External services used by the codec: base64 over the raw node payload and
    hda bytes, the sha1 hex digest, the host's `allSubChildren()` call (all
    `hou.Node` descendants nested anywhere inside a node, recursively), and
    the host's native save/load primitives
    (`saveChildrenToFile`/`loadChildrenFromFile` for generation 1,
    `saveItemsToFile`/`loadItemsFromFile` for generation 2; the file transport
    is folded into the functions, bytes modelled as `String`). -/
structure Libs where
  b64encode : String → String
  b64decode : String → String
  sha1hex : String → String
  allSubChildren : Item → List Item
  saveChildren : List Item → String
  loadChildren : String → List Item
  saveItems : List Item → String
  loadItems : String → List Item

/-- `CURRENT_FORMAT_VERSION = (2, 2)`. -/
def CURRENT_FORMAT_VERSION : Int × Int := (2, 2)

/-- Errors of `getChildContext`. -/
inductive CtxError where
  | unsupportedHostVersion
  deriving DecidableEq, Repr

/-- `getChildContext(node, houver)`: the network context of a parent node.
    Modern hosts (major ≥ 16) expose it via the node's type descriptor,
    pre-modern hosts (10 ≤ major ≤ 15) directly on the node; anything else
    raises `Unsupported Houdini version!`. -/
def getChildContext (node : ParentNode) (houver : Houver) : Except CtxError String :=
  if 16 ≤ houver.1 then
    .ok node.typeChildCategory
  else if 10 ≤ houver.1 ∧ houver.1 ≤ 15 then
    .ok node.directChildCategory
  else
    .error .unsupportedHostVersion

/-- Errors raised by `serializeNodesToString`: the `ValueError` on an empty
    list, the `RuntimeError` on items with different parents, and the
    `RuntimeError` on a too-old host version. -/
inductive SError where
  | emptyInput
  | heterogeneousParent
  | unsupportedHostVersion
  deriving DecidableEq, Repr

/-- Errors raised by `deserializeStringToNodes`: the unified parse failure,
    the legacy-algorithm rejection, the future-format rejection, the
    `getChildContext` failure, `InvalidContextError` (which carries the
    target's current context and the payload's expected context), and the
    checksum failure. -/
inductive DError where
  | corruptPayload
  | unsupportedAlgorithm
  | futureFormat
  | unsupportedHostVersion
  | contextMismatch (current expected : String)
  | checksumMismatch
  deriving DecidableEq, Repr

/-- Python's `str.startswith(pre)`, modelled on the underlying character
    list: `True` exactly when `pre` is a prefix of the string. -/
def strStartsWith (s pre : String) : Bool := pre.data.isPrefixOf s.data

/-- The node set the asset scan visits: every `hou.Node` input item
    (`itemsToScan`) followed by all of its nested sub-children
    (`[item] + list(item.allSubChildren())`). -/
def scannedNodes (L : Libs) (items : List Item) : List Item :=
  (items.filter Item.isNode).flatMap (fun it => it :: L.allSubChildren it)

/-- The asset scan of `serializeNodesToString` (its `transferAssets` branch):
    walk every `hou.Node` input item plus all of its nested sub-children; for
    each one that has a type definition whose library file path does not start
    with `$HFS`, append a `{'type', 'category', 'code'}` record. -/
def collectHdas (L : Libs) (hfs : String) (items : List Item) : List HDAItem :=
  (scannedNodes L items).filterMap
    (fun sub =>
      match sub.defn with
      | none => none
      | some d =>
          if strStartsWith d.libraryFilePath hfs then none
          else some ⟨sub.typeName, sub.categoryName, L.b64encode d.hdaFileContents⟩)

/-- The generation dispatch of the native save step:
    `parent.saveChildrenToFile(nodeItems, (), path)` restricted to `hou.Node`
    items for generation 1, `parent.saveItemsToFile(nodes, path, False)` for
    generation 2 (the initial `nodeCode = ''` otherwise). -/
def nativeBlob (L : Libs) (alg : Int) (items : List Item) : String :=
  if alg = 1 then L.saveChildren (items.filter Item.isNode)
  else if alg = 2 then L.saveItems items
  else ""

/-- The generation dispatch of the native load step:
    `parentNode.loadChildrenFromFile` for generation 1,
    `parentNode.loadItemsFromFile` for generation 2, nothing otherwise;
    the result is the list of items the host creates under the parent. -/
def nativeLoad (L : Libs) (alg : Int) (blob : String) : List Item :=
  if alg = 1 then L.loadChildren blob
  else if alg = 2 then L.loadItems blob
  else []

/-- `serializeNodesToString(nodes, transferAssets)`. Checks the list is
    non-empty, that all items share `nodes[0].parent()`, selects the algorithm
    generation from the host version (1 for majors 10–15, 2 for majors ≥ 16,
    error otherwise), optionally collects embeddable assets, saves the items
    through the native primitive for the generation, and assembles the
    envelope with `version = CURRENT_FORMAT_VERSION`, the parent's context,
    the base64 node code and its sha1 hex digest. -/
def serializeNodesToString (L : Libs) (houver : Houver) (hfs : String)
    (nodes : List SelItem) (transferAssets : Bool) : Except SError Wire :=
  match nodes with
  | [] => .error .emptyInput
  | n0 :: _ =>
    if nodes.all (fun it => it.parent == n0.parent) then
      let algType : Option Int :=
        if 10 ≤ houver.1 ∧ houver.1 ≤ 15 then some 1
        else if 16 ≤ houver.1 then some 2
        else none
      match algType with
      | none => .error .unsupportedHostVersion
      | some alg =>
        let hdaList : List HDAItem :=
          if transferAssets then collectHdas L hfs (nodes.map (·.item)) else []
        let nodeCode : String := nativeBlob L alg (nodes.map (·.item))
        let encodedCode := L.b64encode nodeCode
        match getChildContext n0.parent houver with
        | .error _ => .error .unsupportedHostVersion
        | .ok ctx =>
          .ok (.valid
            { algtype := alg
              version := CURRENT_FORMAT_VERSION.1
              versionMinor := CURRENT_FORMAT_VERSION.2
              houver := houver
              context := ctx
              code := encodedCode
              hdaList := some hdaList
              chsum := L.sha1hex encodedCode })
    else .error .heterogeneousParent

/-- A session node-type key: (category name, type name), as looked up by
    `hou.nodeType(hou.nodeTypeCategories()[category], type)`. -/
abbrev TypeKey := String × String

/-- The HDA installation loop of `deserializeStringToNodes`: for each record,
    skip it when `ignoreHdasIfAlreadyDefined` and its (category, type) key is
    already in the session registry; otherwise install it (adding its key) and,
    when `forcePreferHdas`, mark the matching definition preferred. Returns
    the updated registry and preferred set. -/
def installHdas (ignoreHdas forcePrefer : Bool) :
    List HDAItem → List TypeKey → List TypeKey → List TypeKey × List TypeKey
  | [], reg, pref => (reg, pref)
  | h :: rest, reg, pref =>
      if ignoreHdas ∧ (h.category, h.type) ∈ reg then
        installHdas ignoreHdas forcePrefer rest reg pref
      else
        installHdas ignoreHdas forcePrefer rest ((h.category, h.type) :: reg)
          (if forcePrefer then (h.category, h.type) :: pref else pref)

/-- The outcome of a decode call: the session registry and preferred set after
    the call, the target parent's item list after the call, and either the
    newly created items or the error raised. All state components are
    unchanged whenever the result is an error, because every validation check
    of the source precedes the installation loop and the node creation. -/
structure DecodeOut where
  registry : List TypeKey
  preferred : List TypeKey
  parentItems : List Item
  result : Except DError (List Item)
  deriving Repr

/-- `deserializeStringToNodes(s, parentNode, ignoreHdasIfAlreadyDefined,
    forcePreferHdas)`. Parses the wire string (one unified failure class),
    rejects `algtype == 0`, rejects a major version above
    `CURRENT_FORMAT_VERSION[0]`, resolves and compares the target's context,
    verifies the sha1 checksum of the `code` field, installs the embedded
    HDAs (`data.get('hdaList', [])`), loads the node payload through the
    generation's native primitive, and returns the difference between the
    parent's items after and before the load. -/
def deserializeStringToNodes (L : Libs) (houverCurrent : Houver) (w : Wire)
    (parentNode : ParentNode) (parentItems : List Item)
    (registry preferred : List TypeKey)
    (ignoreHdasIfAlreadyDefined forcePreferHdas : Bool) : DecodeOut :=
  match w with
  | .corrupt => ⟨registry, preferred, parentItems, .error .corruptPayload⟩
  | .valid data =>
    if data.algtype = 0 then
      ⟨registry, preferred, parentItems, .error .unsupportedAlgorithm⟩
    else if CURRENT_FORMAT_VERSION.1 < data.version then
      ⟨registry, preferred, parentItems, .error .futureFormat⟩
    else
      match getChildContext parentNode houverCurrent with
      | .error _ => ⟨registry, preferred, parentItems, .error .unsupportedHostVersion⟩
      | .ok context =>
        if context ≠ data.context then
          ⟨registry, preferred, parentItems, .error (.contextMismatch context data.context)⟩
        else if L.sha1hex data.code ≠ data.chsum then
          ⟨registry, preferred, parentItems, .error .checksumMismatch⟩
        else
          let instOut := installHdas ignoreHdasIfAlreadyDefined forcePreferHdas
            (data.hdaList.getD []) registry preferred
          let nodeCode := L.b64decode data.code
          let created : List Item := nativeLoad L data.algtype nodeCode
          let allAfter := parentItems ++ created
          let newItems := allAfter.filter (fun it => decide (¬ it ∈ parentItems))
          ⟨instOut.1, instOut.2, allAfter, .ok newItems⟩

/-- A concrete instantiation of the external services, used to evaluate the
    codec at concrete inputs: base64 and sha1 are modelled by the identity on
    strings, the native save/load primitives produce nothing. -/
def idLibs : Libs :=
  { b64encode := fun s => s
    b64decode := fun s => s
    sha1hex := fun s => s
    allSubChildren := fun _ => []
    saveChildren := fun _ => ""
    loadChildren := fun _ => []
    saveItems := fun _ => ""
    loadItems := fun _ => [] }

/-- A sample parent container whose child context is `Sop` on either host
    band. -/
def pA : ParentNode := ⟨"/obj/geo1", "Sop", "Sop"⟩

/-- A second sample parent container, distinct from `pA`. -/
def pB : ParentNode := ⟨"/obj/geo2", "Sop", "Sop"⟩

/-- Inversion of a successful encode: the input was non-empty, the algorithm
    generation matches the host band, and the produced envelope carries the
    current format version, the parent's context, the base64 native blob, the
    collected asset list and the digest of the code field. -/
theorem serialize_ok_inv {L : Libs} {houver : Houver} {hfs : String}
    {nodes : List SelItem} {ta : Bool} {w : Wire}
    (h : serializeNodesToString L houver hfs nodes ta = .ok w) :
    ∃ (n0 : SelItem) (rest : List SelItem) (alg : Int) (ctx : String),
      nodes = n0 :: rest ∧
      ((10 ≤ houver.1 ∧ houver.1 ≤ 15 ∧ alg = 1) ∨ (16 ≤ houver.1 ∧ alg = 2)) ∧
      getChildContext n0.parent houver = .ok ctx ∧
      w = .valid
        { algtype := alg
          version := CURRENT_FORMAT_VERSION.1
          versionMinor := CURRENT_FORMAT_VERSION.2
          houver := houver
          context := ctx
          code := L.b64encode (nativeBlob L alg (nodes.map (·.item)))
          hdaList := some (if ta then collectHdas L hfs (nodes.map (·.item)) else [])
          chsum := L.sha1hex (L.b64encode (nativeBlob L alg (nodes.map (·.item)))) } := by
  cases nodes with
  | nil => simp [serializeNodesToString] at h
  | cons n0 rest =>
    by_cases hall : ((n0 :: rest).all (fun it => it.parent == n0.parent) = true)
    · by_cases h1 : 10 ≤ houver.1 ∧ houver.1 ≤ 15
      · cases hg : getChildContext n0.parent houver with
        | error err => simp [serializeNodesToString, hall, h1, hg] at h
        | ok ctx =>
          simp [serializeNodesToString, hall, h1, hg] at h
          exact ⟨n0, rest, 1, ctx, rfl, Or.inl ⟨h1.1, h1.2, rfl⟩, hg, h.symm⟩
      · by_cases h2 : 16 ≤ houver.1
        · cases hg : getChildContext n0.parent houver with
          | error err => simp [serializeNodesToString, hall, h1, h2, hg] at h
          | ok ctx =>
            simp [serializeNodesToString, hall, h1, h2, hg] at h
            exact ⟨n0, rest, 2, ctx, rfl, Or.inr ⟨h2, rfl⟩, hg, h.symm⟩
        · simp [serializeNodesToString, hall, h1, h2] at h
    · simp [serializeNodesToString, hall] at h

/-- C9: `getChildContext` resolves the context through the container's type
    descriptor for modern host majors (≥ 16), directly on the container for
    pre-modern majors (10–15), and fails with the unsupported-host-version
    error for every major outside both bands. -/
theorem child_context_bands (node : ParentNode) (houver : Houver) :
    (16 ≤ houver.1 → getChildContext node houver = .ok node.typeChildCategory) ∧
    (10 ≤ houver.1 ∧ houver.1 ≤ 15 →
      getChildContext node houver = .ok node.directChildCategory) ∧
    (houver.1 < 10 →
      getChildContext node houver = .error .unsupportedHostVersion) := by
  refine ⟨fun h => ?_, fun h => ?_, fun h => ?_⟩
  · rw [getChildContext, if_pos h]
  · rw [getChildContext, if_neg (by omega), if_pos h]
  · rw [getChildContext, if_neg (by omega), if_neg (by omega)]

/-- Witness for C9 at concrete versions 20.0.0, 12.0.0 and 9.0.0. -/
theorem child_context_bands_witness :
    getChildContext ⟨"/obj", "Sop", "SopDirect"⟩ (20, 0, 0) = .ok "Sop" ∧
    getChildContext ⟨"/obj", "Sop", "SopDirect"⟩ (12, 0, 0) = .ok "SopDirect" ∧
    getChildContext ⟨"/obj", "Sop", "SopDirect"⟩ (9, 0, 0) =
      .error .unsupportedHostVersion :=
  ⟨(child_context_bands _ _).1 (by decide),
   (child_context_bands _ _).2.1 (by decide),
   (child_context_bands _ _).2.2 (by decide)⟩

/-- C2: decoding any parseable envelope whose `algtype` field is 0 fails with
    the unsupported-algorithm error, whatever the other fields hold (so also
    when the checksum is valid), and leaves the session registry, the
    preferred set and the parent's items untouched. -/
theorem algtype_zero_rejected (L : Libs) (hv : Houver) (e : Envelope)
    (parentNode : ParentNode) (parentItems : List Item)
    (registry preferred : List TypeKey) (ig fp : Bool)
    (h : e.algtype = 0) :
    deserializeStringToNodes L hv (.valid e) parentNode parentItems
      registry preferred ig fp =
      ⟨registry, preferred, parentItems, .error .unsupportedAlgorithm⟩ := by
  simp [deserializeStringToNodes, h]

/-- Witness for C2: a concrete legacy envelope with a valid checksum. -/
theorem algtype_zero_rejected_witness :
    deserializeStringToNodes idLibs (20, 0, 0)
      (.valid { algtype := 0, version := 2, versionMinor := 2
                houver := (20, 0, 0), context := "Sop", code := "payload"
                hdaList := some [], chsum := "payload" })
      pA [] [] [] true false =
      ⟨[], [], [], .error .unsupportedAlgorithm⟩ :=
  algtype_zero_rejected idLibs (20, 0, 0) _ pA [] [] [] true false rfl

/-- C8: encoding an empty item list fails with the empty-input error, and
    encoding a list whose items do not all share one common parent fails with
    the heterogeneous-parent error; in both cases no envelope is produced. -/
theorem encode_input_errors (L : Libs) (houver : Houver) (hfs : String)
    (nodes : List SelItem) (ta : Bool) :
    (nodes = [] →
      serializeNodesToString L houver hfs nodes ta = .error .emptyInput) ∧
    ((¬ ∃ p : ParentNode, ∀ it ∈ nodes, it.parent = p) →
      serializeNodesToString L houver hfs nodes ta = .error .heterogeneousParent) := by
  constructor
  · rintro rfl; rfl
  · intro hno
    cases nodes with
    | nil => exact absurd ⟨⟨"", "", ""⟩, by simp⟩ hno
    | cons n0 rest =>
      have hall : ¬ ((n0 :: rest).all (fun it => it.parent == n0.parent) = true) := by
        intro hb
        refine hno ⟨n0.parent, fun it hit => ?_⟩
        simpa using List.all_eq_true.mp hb it hit
      simp [serializeNodesToString, hall]

/-- Witness for C8: the empty list, and a two-item list with distinct
    parents. -/
theorem encode_input_errors_witness :
    serializeNodesToString idLibs (20, 0, 0) "/opt/hfs" [] true =
      .error .emptyInput ∧
    serializeNodesToString idLibs (20, 0, 0) "/opt/hfs"
      [⟨.netbox "a", pA⟩, ⟨.netbox "b", pB⟩] true =
      .error .heterogeneousParent := by
  constructor
  · exact (encode_input_errors idLibs (20, 0, 0) "/opt/hfs" [] true).1 rfl
  · refine (encode_input_errors idLibs (20, 0, 0) "/opt/hfs"
      [⟨.netbox "a", pA⟩, ⟨.netbox "b", pB⟩] true).2 ?_
    rintro ⟨p, hp⟩
    have h1 : pA = p := hp ⟨.netbox "a", pA⟩ (by simp)
    have h2 : pB = p := hp ⟨.netbox "b", pB⟩ (by simp)
    have : pA = pB := h1.trans h2.symm
    simp [pA, pB] at this

/-- C10: an otherwise valid envelope with no `hdaList` field decodes
    successfully: the loader reads the field with a default of `[]`, so no
    component definition is installed (registry and preferred set unchanged)
    and the items are created normally from the code field. -/
theorem missing_hdaList_ok (L : Libs) (hv : Houver) (e : Envelope)
    (parentNode : ParentNode) (parentItems : List Item)
    (registry preferred : List TypeKey) (ig fp : Bool)
    (hnone : e.hdaList = none)
    (halg : e.algtype ≠ 0)
    (hver : e.version ≤ CURRENT_FORMAT_VERSION.1)
    (hctx : getChildContext parentNode hv = .ok e.context)
    (hsum : L.sha1hex e.code = e.chsum) :
    deserializeStringToNodes L hv (.valid e) parentNode parentItems
      registry preferred ig fp =
      ⟨registry, preferred,
       parentItems ++ nativeLoad L e.algtype (L.b64decode e.code),
       .ok ((parentItems ++ nativeLoad L e.algtype (L.b64decode e.code)).filter
          (fun it => decide (¬ it ∈ parentItems)))⟩ := by
  have hv2 : ¬ CURRENT_FORMAT_VERSION.1 < e.version := not_lt.mpr hver
  simp [deserializeStringToNodes, halg, hv2, hctx, hsum, hnone, installHdas]

/-- Witness for C10 at a concrete envelope without an asset list. -/
theorem missing_hdaList_ok_witness :
    deserializeStringToNodes idLibs (20, 0, 0)
      (.valid { algtype := 2, version := 2, versionMinor := 2
                houver := (20, 0, 0), context := "Sop", code := "blob"
                hdaList := none, chsum := "blob" })
      pA [Item.netbox "x"] [] [] true false =
      ⟨[], [], [Item.netbox "x"], .ok []⟩ :=
  (missing_hdaList_ok idLibs (20, 0, 0)
      { algtype := 2, version := 2, versionMinor := 2
        houver := (20, 0, 0), context := "Sop", code := "blob"
        hdaList := none, chsum := "blob" }
      pA [Item.netbox "x"] [] [] true false
      rfl (by decide) (by decide) rfl rfl).trans (by rfl)

/-- C5: a parseable, non-legacy envelope is rejected with the future-format
    error exactly when its major version exceeds the reader's supported major
    (the minor version is quantified over and never enforced), and in that
    case nothing is installed and no item is created. -/
theorem future_format_iff (L : Libs) (hv : Houver) (e : Envelope)
    (parentNode : ParentNode) (parentItems : List Item)
    (registry preferred : List TypeKey) (ig fp : Bool)
    (halg : e.algtype ≠ 0) :
    ((deserializeStringToNodes L hv (.valid e) parentNode parentItems
        registry preferred ig fp).result = .error .futureFormat ↔
      CURRENT_FORMAT_VERSION.1 < e.version) ∧
    (CURRENT_FORMAT_VERSION.1 < e.version →
      deserializeStringToNodes L hv (.valid e) parentNode parentItems
        registry preferred ig fp =
        ⟨registry, preferred, parentItems, .error .futureFormat⟩) := by
  by_cases hv2 : CURRENT_FORMAT_VERSION.1 < e.version
  · exact ⟨by simp [deserializeStringToNodes, halg, hv2],
      fun _ => by simp [deserializeStringToNodes, halg, hv2]⟩
  · refine ⟨⟨fun hres => ?_, fun h => absurd h hv2⟩, fun h => absurd h hv2⟩
    rw [deserializeStringToNodes] at hres
    rw [if_neg halg, if_neg hv2] at hres
    revert hres
    cases hg : getChildContext parentNode hv with
    | error err => simp
    | ok ctx =>
      by_cases hc : ctx ≠ e.context
      · simp [hc]
      · by_cases hs : L.sha1hex e.code ≠ e.chsum
        · simp [hc, hs]
        · simp [hc, hs]

/-- Witness for C5 at a concrete envelope with major version 3. -/
theorem future_format_iff_witness :
    deserializeStringToNodes idLibs (20, 0, 0)
      (.valid { algtype := 2, version := 3, versionMinor := 0
                houver := (20, 0, 0), context := "Sop", code := "blob"
                hdaList := some [], chsum := "blob" })
      pA [] [] [] true false =
      ⟨[], [], [], .error .futureFormat⟩ :=
  (future_format_iff idLibs (20, 0, 0)
      { algtype := 2, version := 3, versionMinor := 0
        houver := (20, 0, 0), context := "Sop", code := "blob"
        hdaList := some [], chsum := "blob" }
      pA [] [] [] true false (by decide)).2 (by decide)

/-- C3: the decoder's validation checks run in the fixed order
    algorithm-generation, major-version, context, checksum: whatever the
    remaining fields hold, a legacy generation is reported first, then a
    too-new major version, then a context mismatch, then a checksum
    mismatch. -/
theorem validation_check_order (L : Libs) (hv : Houver) (e : Envelope)
    (parentNode : ParentNode) (parentItems : List Item)
    (registry preferred : List TypeKey) (ig fp : Bool) :
    (e.algtype = 0 →
      (deserializeStringToNodes L hv (.valid e) parentNode parentItems
        registry preferred ig fp).result = .error .unsupportedAlgorithm) ∧
    (e.algtype ≠ 0 → CURRENT_FORMAT_VERSION.1 < e.version →
      (deserializeStringToNodes L hv (.valid e) parentNode parentItems
        registry preferred ig fp).result = .error .futureFormat) ∧
    (∀ ctx, e.algtype ≠ 0 → e.version ≤ CURRENT_FORMAT_VERSION.1 →
      getChildContext parentNode hv = .ok ctx → ctx ≠ e.context →
      (deserializeStringToNodes L hv (.valid e) parentNode parentItems
        registry preferred ig fp).result =
        .error (.contextMismatch ctx e.context)) ∧
    (∀ ctx, e.algtype ≠ 0 → e.version ≤ CURRENT_FORMAT_VERSION.1 →
      getChildContext parentNode hv = .ok ctx → ctx = e.context →
      L.sha1hex e.code ≠ e.chsum →
      (deserializeStringToNodes L hv (.valid e) parentNode parentItems
        registry preferred ig fp).result = .error .checksumMismatch) := by
  refine ⟨fun h0 => ?_, fun h0 h1 => ?_, fun ctx h0 h1 hg hc => ?_,
    fun ctx h0 h1 hg hc hs => ?_⟩
  · simp [deserializeStringToNodes, h0]
  · simp [deserializeStringToNodes, h0, h1]
  · simp [deserializeStringToNodes, h0, not_lt.mpr h1, hg, hc]
  · simp [deserializeStringToNodes, h0, not_lt.mpr h1, hg, hc, hs]

/-- Witness for C3: one concrete envelope per failing check, each reporting
    the error of the earliest failing check. -/
theorem validation_check_order_witness :
    (deserializeStringToNodes idLibs (20, 0, 0)
      (.valid { algtype := 0, version := 3, versionMinor := 0
                houver := (20, 0, 0), context := "Object", code := "x"
                hdaList := some [], chsum := "bad" })
      pA [] [] [] true false).result = .error .unsupportedAlgorithm ∧
    (deserializeStringToNodes idLibs (20, 0, 0)
      (.valid { algtype := 2, version := 3, versionMinor := 0
                houver := (20, 0, 0), context := "Object", code := "x"
                hdaList := some [], chsum := "bad" })
      pA [] [] [] true false).result = .error .futureFormat ∧
    (deserializeStringToNodes idLibs (20, 0, 0)
      (.valid { algtype := 2, version := 2, versionMinor := 0
                houver := (20, 0, 0), context := "Object", code := "x"
                hdaList := some [], chsum := "bad" })
      pA [] [] [] true false).result =
        .error (.contextMismatch "Sop" "Object") ∧
    (deserializeStringToNodes idLibs (20, 0, 0)
      (.valid { algtype := 2, version := 2, versionMinor := 0
                houver := (20, 0, 0), context := "Sop", code := "x"
                hdaList := some [], chsum := "bad" })
      pA [] [] [] true false).result = .error .checksumMismatch :=
  ⟨(validation_check_order idLibs (20, 0, 0) _ pA [] [] [] true false).1 rfl,
   (validation_check_order idLibs (20, 0, 0) _ pA [] [] [] true false).2.1
     (by decide) (by decide),
   (validation_check_order idLibs (20, 0, 0) _ pA [] [] [] true false).2.2.1
     "Sop" (by decide) (by decide) rfl (by decide),
   (validation_check_order idLibs (20, 0, 0) _ pA [] [] [] true false).2.2.2
     "Sop" (by decide) (by decide) rfl rfl (by decide)⟩

/-- Counterexample to C4 as stated: a parseable, non-legacy envelope whose
    stored checksum differs from the digest of its code field but whose major
    version is 3 is rejected with the future-format error, not the checksum
    error, because the version check runs first. -/
theorem checksum_claim_counterexample :
    ((2 : Int) ≠ 0) ∧
    (idLibs.sha1hex "x" ≠ "bad") ∧
    (deserializeStringToNodes idLibs (20, 0, 0)
      (.valid { algtype := 2, version := 3, versionMinor := 0
                houver := (20, 0, 0), context := "Sop", code := "x"
                hdaList := some [], chsum := "bad" })
      pA [] [] [] true false).result = .error .futureFormat ∧
    ¬ (deserializeStringToNodes idLibs (20, 0, 0)
      (.valid { algtype := 2, version := 3, versionMinor := 0
                houver := (20, 0, 0), context := "Sop", code := "x"
                hdaList := some [], chsum := "bad" })
      pA [] [] [] true false).result = .error .checksumMismatch := by
  have hres : (deserializeStringToNodes idLibs (20, 0, 0)
      (.valid { algtype := 2, version := 3, versionMinor := 0
                houver := (20, 0, 0), context := "Sop", code := "x"
                hdaList := some [], chsum := "bad" })
      pA [] [] [] true false).result = .error .futureFormat := rfl
  refine ⟨by decide, by decide, hres, fun h => ?_⟩
  rw [hres] at h
  simp at h

/-- C4 (amended): once the earlier checks pass — non-legacy generation,
    supported major version, matching context — a stored checksum different
    from the digest of the code field makes decoding fail with the checksum
    error and leaves registry, preferred set and parent items untouched; in
    particular, replacing the code field of a freshly encoded envelope by any
    string with a different digest and decoding into a matching-context
    target yields the checksum error. -/
theorem checksum_mismatch_rejects (L : Libs) (hv : Houver)
    (parentNode : ParentNode) (parentItems : List Item)
    (registry preferred : List TypeKey) (ig fp : Bool) :
    (∀ e : Envelope, e.algtype ≠ 0 → e.version ≤ CURRENT_FORMAT_VERSION.1 →
      getChildContext parentNode hv = .ok e.context →
      L.sha1hex e.code ≠ e.chsum →
      deserializeStringToNodes L hv (.valid e) parentNode parentItems
        registry preferred ig fp =
        ⟨registry, preferred, parentItems, .error .checksumMismatch⟩) ∧
    (∀ (houverS : Houver) (hfs : String) (nodes : List SelItem) (ta : Bool)
        (enc : Envelope) (c' : String),
      serializeNodesToString L houverS hfs nodes ta = .ok (.valid enc) →
      L.sha1hex c' ≠ L.sha1hex enc.code →
      getChildContext parentNode hv = .ok enc.context →
      deserializeStringToNodes L hv (.valid { enc with code := c' })
        parentNode parentItems registry preferred ig fp =
        ⟨registry, preferred, parentItems, .error .checksumMismatch⟩) := by
  have parta : ∀ e : Envelope, e.algtype ≠ 0 →
      e.version ≤ CURRENT_FORMAT_VERSION.1 →
      getChildContext parentNode hv = .ok e.context →
      L.sha1hex e.code ≠ e.chsum →
      deserializeStringToNodes L hv (.valid e) parentNode parentItems
        registry preferred ig fp =
        ⟨registry, preferred, parentItems, .error .checksumMismatch⟩ := by
    intro e halg hver hctx hsum
    simp [deserializeStringToNodes, halg, not_lt.mpr hver, hctx, hsum]
  refine ⟨parta, ?_⟩
  intro houverS hfs nodes ta enc c' henc hdig hctx
  obtain ⟨n0, rest, alg, ctx, hn, hband, hg, hw⟩ := serialize_ok_inv henc
  have henc2 := Wire.valid.inj hw
  have halg : alg ≠ 0 := by
    rcases hband with ⟨-, -, rfl⟩ | ⟨-, rfl⟩ <;> decide
  subst henc2
  exact parta _ halg (le_refl _) hctx hdig

/-- Witness for the amended C4: a concrete bad-checksum envelope is rejected,
    and a concrete freshly encoded envelope whose code field is replaced is
    rejected too. -/
theorem checksum_mismatch_rejects_witness :
    deserializeStringToNodes idLibs (20, 0, 0)
      (.valid { algtype := 2, version := 2, versionMinor := 2
                houver := (20, 0, 0), context := "Sop", code := "x"
                hdaList := some [], chsum := "bad" })
      pA [] [] [] true false =
      ⟨[], [], [], .error .checksumMismatch⟩ ∧
    deserializeStringToNodes idLibs (20, 0, 0)
      (.valid { algtype := 2, version := 2, versionMinor := 2
                houver := (20, 0, 0), context := "Sop", code := "y"
                hdaList := some [], chsum := "" })
      pA [] [] [] true false =
      ⟨[], [], [], .error .checksumMismatch⟩ := by
  constructor
  · exact (checksum_mismatch_rejects idLibs (20, 0, 0) pA [] [] [] true false).1
      _ (by decide) (by decide) rfl (by decide)
  · exact (checksum_mismatch_rejects idLibs (20, 0, 0) pA [] [] [] true false).2
      (20, 0, 0) "/opt/hfs" [⟨.netbox "a", pA⟩] false
      { algtype := 2, version := 2, versionMinor := 2
        houver := (20, 0, 0), context := "Sop", code := ""
        hdaList := some [], chsum := "" }
      "y" rfl (by decide) rfl

/-- C6: decoding a payload encoded under context A into a target whose
    resolved context is B ≠ A fails with the context-mismatch error, and the
    error carries the target's current context B and the payload's expected
    context A. -/
theorem context_mismatch_carries_contexts (L : Libs) (houverS hv : Houver)
    (hfs : String) (nodes : List SelItem) (ta : Bool) (enc : Envelope)
    (target : ParentNode) (parentItems : List Item)
    (registry preferred : List TypeKey) (ig fp : Bool) (b : String)
    (henc : serializeNodesToString L houverS hfs nodes ta = .ok (.valid enc))
    (hctx : getChildContext target hv = .ok b)
    (hne : b ≠ enc.context) :
    deserializeStringToNodes L hv (.valid enc) target parentItems
      registry preferred ig fp =
      ⟨registry, preferred, parentItems,
       .error (.contextMismatch b enc.context)⟩ := by
  obtain ⟨n0, rest, alg, ctx, hn, hband, hg, hw⟩ := serialize_ok_inv henc
  have henc2 := Wire.valid.inj hw
  have halg : alg ≠ 0 := by
    rcases hband with ⟨-, -, rfl⟩ | ⟨-, rfl⟩ <;> decide
  subst henc2
  simp [deserializeStringToNodes, CURRENT_FORMAT_VERSION, halg, hctx, hne]

/-- Witness for C6: a `Sop`-context payload decoded into an `Object`-context
    target. -/
theorem context_mismatch_carries_contexts_witness :
    deserializeStringToNodes idLibs (20, 0, 0)
      (.valid { algtype := 2, version := 2, versionMinor := 2
                houver := (20, 0, 0), context := "Sop", code := ""
                hdaList := some [], chsum := "" })
      ⟨"/obj", "Object", "Object"⟩ [] [] [] true false =
      ⟨[], [], [], .error (.contextMismatch "Object" "Sop")⟩ :=
  context_mismatch_carries_contexts idLibs (20, 0, 0) (20, 0, 0) "/opt/hfs"
    [⟨.netbox "a", pA⟩] false
    { algtype := 2, version := 2, versionMinor := 2
      houver := (20, 0, 0), context := "Sop", code := ""
      hdaList := some [], chsum := "" }
    ⟨"/obj", "Object", "Object"⟩ [] [] [] true false "Object"
    rfl rfl (by decide)

/-- Membership in the asset scan's output: a record is collected exactly when
    some scanned node has a definition whose library path does not start with
    the install root and the record is built from that node and definition. -/
theorem mem_collectHdas {L : Libs} {hfs : String} {items : List Item}
    {r : HDAItem} :
    r ∈ collectHdas L hfs items ↔
      ∃ sub ∈ scannedNodes L items, ∃ d, sub.defn = some d ∧
        ¬ strStartsWith d.libraryFilePath hfs ∧
        r = ⟨sub.typeName, sub.categoryName, L.b64encode d.hdaFileContents⟩ := by
  rw [collectHdas, List.mem_filterMap]
  constructor
  · rintro ⟨sub, hsub, hf⟩
    split at hf
    · exact absurd hf (by simp)
    · rename_i d hd
      split at hf
      · exact absurd hf (by simp)
      · rename_i hp
        exact ⟨sub, hsub, d, hd, hp, (Option.some.inj hf).symm⟩
  · rintro ⟨sub, hsub, d, hd, hp, rfl⟩
    refine ⟨sub, hsub, ?_⟩
    rw [hd]
    simp [hp]

/-- C7: for an encode with asset transfer enabled, the envelope's asset list
    embeds exactly the definitions of scanned nodes (each `hou.Node` input
    item and all of its nested descendants) whose source library file is not
    located under the install root: every such outside-root definition is
    embedded, and every embedded record stems from such an outside-root
    definition — definitions under the install root are never embedded. -/
theorem asset_scope (L : Libs) (houver : Houver) (hfs : String)
    (nodes : List SelItem) (enc : Envelope)
    (henc : serializeNodesToString L houver hfs nodes true = .ok (.valid enc)) :
    (∀ sub ∈ scannedNodes L (nodes.map (·.item)), ∀ d, sub.defn = some d →
      ¬ strStartsWith d.libraryFilePath hfs →
      (⟨sub.typeName, sub.categoryName, L.b64encode d.hdaFileContents⟩ : HDAItem)
        ∈ enc.hdaList.getD []) ∧
    (∀ r ∈ enc.hdaList.getD [], ∃ sub ∈ scannedNodes L (nodes.map (·.item)),
      ∃ d, sub.defn = some d ∧ ¬ strStartsWith d.libraryFilePath hfs ∧
        r = ⟨sub.typeName, sub.categoryName, L.b64encode d.hdaFileContents⟩) := by
  obtain ⟨n0, rest, alg, ctx, hn, hband, hg, hw⟩ := serialize_ok_inv henc
  have henc2 := Wire.valid.inj hw
  subst henc2
  constructor
  · intro sub hsub d hd hp
    exact mem_collectHdas.mpr ⟨sub, hsub, d, hd, hp, rfl⟩
  · intro r hr
    exact mem_collectHdas.mp hr

/-- A user-authored component definition sourced outside the install root. -/
def hdaOut : HDADef := ⟨"/home/user/hda/foo.hda", "FOO"⟩

/-- A stock component definition sourced under the install root. -/
def hdaIn : HDADef := ⟨"/opt/hfs20/hda/bar.hda", "BAR"⟩

/-- A container node carrying the outside-root definition. -/
def fooNode : Item := .node "foo" "Sop" "foo1" [] (some hdaOut)

/-- A nested descendant carrying the under-root definition. -/
def barNode : Item := .node "bar" "Sop" "bar1" [] (some hdaIn)

/-- External services for the C7 witness: `fooNode` has `barNode` as its one
    nested descendant. -/
def scanLibs : Libs :=
  { idLibs with allSubChildren := fun it => if it = fooNode then [barNode] else [] }

/-- Witness for C7: encoding `fooNode` embeds its outside-root definition. -/
theorem asset_scope_witness :
    (⟨"foo", "Sop", "FOO"⟩ : HDAItem) ∈
      (Envelope.hdaList
        { algtype := 2, version := 2, versionMinor := 2
          houver := (20, 0, 0), context := "Sop", code := ""
          hdaList := some [⟨"foo", "Sop", "FOO"⟩], chsum := "" }).getD [] :=
  (asset_scope scanLibs (20, 0, 0) "/opt/hfs20" [⟨fooNode, pA⟩]
      { algtype := 2, version := 2, versionMinor := 2
        houver := (20, 0, 0), context := "Sop", code := ""
        hdaList := some [⟨"foo", "Sop", "FOO"⟩], chsum := "" }
      rfl).1
    fooNode (by decide) hdaOut rfl (by decide)

/-- C1: round-trip. Encoding a non-empty, same-parent item list and decoding
    the produced envelope into a target whose resolved context equals the
    payload's context succeeds and returns exactly the original items (hence
    their node types, names and parameter values), given the external
    contracts at this payload: base64 decode inverts base64 encode on the
    native blob, the host's native load inverts its native save on these
    items, and the created items are fresh in the target (in the host they
    are fresh objects by identity). -/
theorem roundtrip_reconstructs (L : Libs) (houver hvCur : Houver) (hfs : String)
    (nodes : List SelItem) (ta : Bool) (enc : Envelope)
    (target : ParentNode) (targetItems : List Item)
    (registry preferred : List TypeKey) (ig fp : Bool)
    (henc : serializeNodesToString L houver hfs nodes ta = .ok (.valid enc))
    (hb64 : L.b64decode (L.b64encode (nativeBlob L enc.algtype (nodes.map (·.item)))) =
      nativeBlob L enc.algtype (nodes.map (·.item)))
    (hload : nativeLoad L enc.algtype (nativeBlob L enc.algtype (nodes.map (·.item))) =
      nodes.map (·.item))
    (hctx : getChildContext target hvCur = .ok enc.context)
    (hdisj : ∀ it ∈ nodes, it.item ∉ targetItems) :
    deserializeStringToNodes L hvCur (.valid enc) target targetItems
      registry preferred ig fp =
      ⟨(installHdas ig fp (enc.hdaList.getD []) registry preferred).1,
       (installHdas ig fp (enc.hdaList.getD []) registry preferred).2,
       targetItems ++ nodes.map (·.item),
       .ok (nodes.map (·.item))⟩ := by
  obtain ⟨n0, rest, alg, ctx, hn, hband, hg, hw⟩ := serialize_ok_inv henc
  have henc2 := Wire.valid.inj hw
  have halg : alg ≠ 0 := by rcases hband with ⟨-, -, rfl⟩ | ⟨-, rfl⟩ <;> decide
  have halg0 : enc.algtype = alg := by rw [henc2]
  have hver0 : enc.version = CURRENT_FORMAT_VERSION.1 := by rw [henc2]
  have hcode0 : enc.code = L.b64encode (nativeBlob L alg (nodes.map (·.item))) := by
    rw [henc2]
  have hchsum0 : enc.chsum =
      L.sha1hex (L.b64encode (nativeBlob L alg (nodes.map (·.item)))) := by
    rw [henc2]
  have halgne : ¬ enc.algtype = 0 := by rw [halg0]; exact halg
  have hv2 : ¬ CURRENT_FORMAT_VERSION.1 < enc.version := by
    rw [hver0]; exact lt_irrefl _
  have hsum : L.sha1hex enc.code = enc.chsum := by rw [hcode0, hchsum0]
  rw [halg0] at hb64 hload
  have hdisj' : ∀ a ∈ nodes.map (·.item), a ∉ targetItems := by
    intro a ha
    obtain ⟨it, hit, rfl⟩ := List.mem_map.mp ha
    exact hdisj it hit
  simp [deserializeStringToNodes, halgne, hv2, hctx, hsum, hcode0, halg0,
    hb64, hload]
  rw [if_neg halg, if_pos hchsum0.symm]
  have h1 : List.filter (fun it => !decide (it ∈ targetItems)) targetItems = [] :=
    List.filter_eq_nil_iff.mpr (fun a ha => by simp [ha])
  have h2 : List.filter (fun it => !decide (it ∈ targetItems))
      (nodes.map (fun x => x.item)) = nodes.map (fun x => x.item) :=
    List.filter_eq_self.mpr (fun a ha => by simpa using hdisj' a ha)
  rw [h1, h2, List.nil_append]

/-- External services for the C1 witness: the native save of the sample box
    node produces the blob `"blob"`, and loading that blob recreates the
    box node. -/
def rtLibs : Libs :=
  { idLibs with
      saveItems := fun _ => "blob"
      loadItems := fun s =>
        if s = "blob" then [Item.node "box" "Sop" "box1" [("scale", "2")] none]
        else [] }

/-- Witness for C1: a one-node encode/decode round-trip at concrete inputs. -/
theorem roundtrip_reconstructs_witness :
    deserializeStringToNodes rtLibs (20, 0, 0)
      (.valid { algtype := 2, version := 2, versionMinor := 2
                houver := (20, 0, 0), context := "Sop", code := "blob"
                hdaList := some [], chsum := "blob" })
      pB [] [] [] true false =
      ⟨[], [], [Item.node "box" "Sop" "box1" [("scale", "2")] none],
       .ok [Item.node "box" "Sop" "box1" [("scale", "2")] none]⟩ :=
  (roundtrip_reconstructs rtLibs (20, 0, 0) (20, 0, 0) "/opt/hfs"
      [⟨Item.node "box" "Sop" "box1" [("scale", "2")] none, pA⟩] true
      { algtype := 2, version := 2, versionMinor := 2
        houver := (20, 0, 0), context := "Sop", code := "blob"
        hdaList := some [], chsum := "blob" }
      pB [] [] [] true false rfl rfl rfl rfl (by simp)).trans rfl

end NodeSerializer
